import Mathlib

/-!
# quickFit: model validation, parameter preparation and fit orchestration

A shallow embedding of `src/src/fitTool.cxx` (`fitTool::checkModel`,
`fitTool::profileToData`) and of the preparation and reporting parts of `main`
in `src/app/quickFit.cxx`.

Conventions of the embedding.

* A `double` is an IEEE 754 value: not a number, an infinity, or a finite number, with
  the comparisons of IEEE 754. A `float` is written as the `double` it converts to.
  The conversion `std::stof` and the `float` products of the source round and
  overflow as binary32 does.
* A workspace owns its nodes; the sets of a `ModelConfig` hold references to
  them, written here as names that are looked up in the workspace.
* The accessors of the external `RooRealVar` class (`setRange`, `setVal`,
  `setConstant`, `getMin`, `getMax`, `isConstant`) are plain stores and loads of
  the fields of the node: what is stored is exactly the argument passed.
* An exception leaving a function is the `Except.error` result.
-/

namespace QuickFit

/-! ## Floating-point values -/

/-- A value of the type `double`: not a number, an infinity, or a finite number. A `float`
converts to `double` without change, so a `float` is written as the `double` it converts to.
The two zeros are one value: the code compares, doubles, negates and stores, and none of
these tells them apart. -/
inductive double where
  | nan
  | inf (negative : Bool)
  | fin (q : ℚ)
  deriving DecidableEq

/-- A value of the type `float`, written as the `double` it converts to. -/
abbrev float := double

namespace double

/-- The comparison `x < y` of IEEE 754: false as soon as one side is not a number. -/
def lt : double → double → Bool
  | fin a, fin b => decide (a < b)
  | fin _, inf negative => !negative
  | inf negative, fin _ => negative
  | inf a, inf b => a && !b
  | _, _ => false

/-- The comparison `x <= y` of IEEE 754: false as soon as one side is not a number. -/
def le : double → double → Bool
  | fin a, fin b => decide (a ≤ b)
  | fin _, inf negative => !negative
  | inf negative, fin _ => negative
  | inf a, inf b => a || !b
  | _, _ => false

instance : LT double := ⟨fun x y => lt x y = true⟩

instance : LE double := ⟨fun x y => le x y = true⟩

instance decLt (x y : double) : Decidable (x < y) :=
  inferInstanceAs (Decidable (lt x y = true))

instance decLe (x y : double) : Decidable (x ≤ y) :=
  inferInstanceAs (Decidable (le x y = true))

end double

/-- The largest finite `float`, `FLT_MAX`. -/
def FLT_MAX : ℚ := (2 ^ 24 - 1) * 2 ^ 104

/-- The `float` product `k * x` for `k` one of the constants 2 and -2 of the source: on a
`float` it is exact unless it overflows, and then it is the infinity of its sign. -/
def float.scale (k : ℚ) : float → float
  | .nan => .nan
  | .inf negative => .inf (negative != decide (k < 0))
  | .fin q => if FLT_MAX < |k * q| then .inf (decide (k * q < 0)) else .fin (k * q)

/-- The overload `abs(float)`. -/
def float.abs : float → float
  | .nan => .nan
  | .inf _ => .inf false
  | .fin q => .fin |q|

/-! ## Workspace nodes -/

/-- A node owned by the workspace, with what the code reads or writes of it:
its name, its class name, whether `dynamic_cast<RooRealVar*>` succeeds on it,
current value, range, and the attributes `Constant` and `flatParam`. -/
structure RooAbsArg where
  name : String
  className : String
  isRealVar : Bool
  val : double
  min : double
  max : double
  constant : Bool
  flatParam : Bool
  deriving DecidableEq

namespace RooAbsArg

/-- Model of `RooRealVar::getMin`. -/
def getMin (v : RooAbsArg) : double := v.min

/-- Model of `RooRealVar::getMax`. -/
def getMax (v : RooAbsArg) : double := v.max

/-- Model of `RooAbsArg::isConstant`. -/
def isConstant (v : RooAbsArg) : Bool := v.constant

/-- Model of `RooRealVar::setRange(min, max)`. -/
def setRange (v : RooAbsArg) (lo hi : double) : RooAbsArg := { v with min := lo, max := hi }

/-- Model of `RooRealVar::setVal(value)`. -/
def setVal (v : RooAbsArg) (x : double) : RooAbsArg := { v with val := x }

/-- Model of `RooRealVar::setConstant(flag)`. -/
def setConstant (v : RooAbsArg) (c : Bool) : RooAbsArg := { v with constant := c }

end RooAbsArg

/-- Replace by `f a` the first node `a` of the list that is called `name`. -/
def modifyNode (name : String) (f : RooAbsArg → RooAbsArg) : List RooAbsArg → List RooAbsArg
  | [] => []
  | a :: rest => if a.name = name then f a :: rest else a :: modifyNode name f rest

/-- The nodes a workspace owns. A name refers to the first node carrying it. -/
structure RooWorkspace where
  nodes : List RooAbsArg
  deriving DecidableEq

namespace RooWorkspace

/-- The node called `name`, if the workspace owns one. -/
def find (ws : RooWorkspace) (name : String) : Option RooAbsArg :=
  ws.nodes.find? (fun a => decide (a.name = name))

/-- Model of `RooWorkspace::var(name)`: the node called `name` when it is a `RooRealVar`,
the null pointer otherwise. -/
def var (ws : RooWorkspace) (name : String) : Option RooAbsArg :=
  match ws.find name with
  | some a => if a.isRealVar then some a else none
  | none => none

/-- In-place update, through a pointer, of the node called `name`. -/
def modify (ws : RooWorkspace) (name : String) (f : RooAbsArg → RooAbsArg) : RooWorkspace :=
  { nodes := modifyNode name f ws.nodes }

end RooWorkspace

/-! ## Text helpers -/

/-- Tokens of a character list: the maximal non-empty runs of characters that are
not delimiters. `cur` is the run being read, most recent character first. -/
def tokenizeAux (delims : List Char) : List Char → List Char → List (List Char)
  | [], cur => if cur.isEmpty then [] else [cur.reverse]
  | c :: cs, cur =>
    if c ∈ delims then
      if cur.isEmpty then tokenizeAux delims cs [] else cur.reverse :: tokenizeAux delims cs []
    else tokenizeAux delims cs (c :: cur)

/-- Modelled from the spec: `auxUtils::Tokenize` is declared in `inc/auxUtils.h`, which is
not among the sources. The spec says a directive is split on `=`, then on `_`, and a list
on `,`: the string is cut at every delimiter character and the pieces between them are the
tokens. -/
def Tokenize (str : String) (delimiters : String) : List String :=
  (tokenizeAux delimiters.toList str.toList []).map String.mk

/-- Model of the wild-card match `RooAbsCollection::selectByName` performs on one
expression: `*` stands for any run of characters, `?` for any one character, and the
whole name has to match. -/
def wildcardMatch : List Char → List Char → Bool
  | [], [] => true
  | [], _ :: _ => false
  | p :: ps, [] => if p = '*' then wildcardMatch ps [] else false
  | p :: ps, c :: cs =>
    if p = '*' then wildcardMatch ps (c :: cs) || wildcardMatch (p :: ps) cs
    else (p = '?' || p = c) && wildcardMatch ps cs
termination_by ps cs => ps.length + cs.length

/-! ## `std::stof` -/

/-- The test `isspace` in the C locale. -/
def isspace (c : Char) : Bool :=
  c.toNat = 32 || (9 ≤ c.toNat && c.toNat ≤ 13)

/-- The value of a decimal digit. -/
def digitValue (c : Char) : Option Nat :=
  if 48 ≤ c.toNat ∧ c.toNat ≤ 57 then some (c.toNat - 48) else none

/-- The value of a hexadecimal digit. -/
def hexValue (c : Char) : Option Nat :=
  if 48 ≤ c.toNat ∧ c.toNat ≤ 57 then some (c.toNat - 48)
  else if 97 ≤ c.toNat ∧ c.toNat ≤ 102 then some (c.toNat - 87)
  else if 65 ≤ c.toNat ∧ c.toNat ≤ 70 then some (c.toNat - 55)
  else none

/-- Read a run of digits in a base: the number read so far, how many digits were read, and
the characters left. -/
def readDigits (digit : Char → Option Nat) (base : Nat) :
    List Char → Nat → Nat → Nat × Nat × List Char
  | [], acc, n => (acc, n, [])
  | c :: cs, acc, n =>
    match digit c with
    | some d => readDigits digit base cs (base * acc + d) (n + 1)
    | none => (acc, n, c :: cs)

/-- An optional sign: whether it is a minus, and the characters left. -/
def readSign : List Char → Bool × List Char
  | '-' :: cs => (true, cs)
  | '+' :: cs => (false, cs)
  | cs => (false, cs)

/-- Digits with an optional radix point among them: the digits read as one number, how many
digits there are, how many of them follow the point, and the characters left. -/
def readMantissa (digit : Char → Option Nat) (base : Nat) (cs : List Char) :
    Nat × Nat × Nat × List Char :=
  match readDigits digit base cs 0 0 with
  | (ip, ni, rest) =>
    match rest with
    | '.' :: r =>
      match readDigits digit base r ip 0 with
      | (m, nf, r) => (m, ni + nf, nf, r)
    | _ => (ip, ni, 0, rest)

/-- An optional exponent: the marker letter, an optional sign and at least one decimal
digit. Zero when the text does not go on like that. -/
def readExponent (marker : Char) : List Char → Int
  | [] => 0
  | c :: r =>
    if c.toLower = marker then
      match readSign r with
      | (negative, r) =>
        match readDigits digitValue 10 r 0 0 with
        | (e, n, _) => if n = 0 then 0 else if negative then - (e : Int) else (e : Int)
    else 0

/-- Whether the text starts with the lower-case word, letter case ignored. -/
def startsWithNoCase : List Char → List Char → Bool
  | [], _ => true
  | _ :: _, [] => false
  | w :: ws, c :: cs => c.toLower = w && startsWithNoCase ws cs

/-- What `strtof` reads after white space and sign. -/
inductive Subject where
  | none
  | infinity
  | notANumber
  | number (mantissa : Nat) (base : Nat) (exponent : Int)
  deriving DecidableEq

/-- The subject sequence of `strtof`: `inf` or `infinity`, `nan`, a hexadecimal number
after `0x` with a binary exponent after `p`, or a decimal number with a decimal exponent
after `e`. The number read is `mantissa * base ^ exponent`. -/
def readSubject (cs : List Char) : Subject :=
  if startsWithNoCase ['i', 'n', 'f'] cs then .infinity
  else if startsWithNoCase ['n', 'a', 'n'] cs then .notANumber
  else
    let decimal : Subject :=
      match readMantissa digitValue 10 cs with
      | (m, n, nf, rest) =>
        if n = 0 then .none else .number m 10 (readExponent 'e' rest - (nf : Int))
    match cs with
    | c0 :: c1 :: r =>
      if c0 = '0' ∧ c1.toLower = 'x' then
        match readMantissa hexValue 16 r with
        | (m, n, nf, rest) =>
          if n = 0 then .number 0 10 0
          else .number m 2 (readExponent 'p' rest - 4 * (nf : Int))
      else decimal
    | _ => decimal

/-- The number of halvings that bring `n` below 2, at most `fuel` of them. -/
def log2Fuel : Nat → Nat → Nat
  | 0, _ => 0
  | fuel + 1, n => if n < 2 then 0 else log2Fuel fuel (n / 2) + 1

/-- The integer part of the binary logarithm of `N / D`, for positive `N` and `D`. -/
def floorLog2 (N D : Nat) : Int :=
  let e : Int := (log2Fuel N N : Int) - (log2Fuel D D : Int)
  if D * 2 ^ e.toNat ≤ N * 2 ^ (-e).toNat then e else e - 1

/-- The integer nearest to `A / B`, the even one of two that are equally near. -/
def roundHalfEven (A B : Nat) : Nat :=
  if 2 * (A % B) > B ∨ (2 * (A % B) = B ∧ (A / B) % 2 = 1) then A / B + 1 else A / B

/-- The `float` nearest to `N / D` as `strtof` gives it, written `m * 2 ^ q`; `none` when
`strtof` sets `ERANGE`: the rounded value is beyond `FLT_MAX`, or the value is below the
normal range, is not a `float`, and stays below the normal range when rounded to 24 bits. -/
def roundToFloat (N D : Nat) : Option (Nat × Int) :=
  if N = 0 then some (0, 0)
  else
    let e := floorLog2 N D
    let q : Int := max e (-126) - 23
    let A := N * 2 ^ (-q).toNat
    let B := D * 2 ^ q.toNat
    let m := roundHalfEven A B
    let overflow : Bool := decide (104 < q) || (decide (q = 104) && decide (2 ^ 24 ≤ m))
    let inexact : Bool := decide (A % B ≠ 0)
    let tiny : Bool :=
      decide (e < -126) && decide (roundHalfEven (N * 2 ^ (23 - e).toNat) D < 2 ^ (-103 - e).toNat)
    if overflow || (inexact && tiny) then none else some (m, q)

/-- The outcome of `strtof`. -/
inductive Conversion where
  | noConversion
  | rangeError
  | infinity (negative : Bool)
  | notANumber
  | finite (negative : Bool) (m : Nat) (q : Int)
  deriving DecidableEq

/-- Model of `strtof` in the C locale, as the GNU C library on x86-64 performs it: white space
is skipped, an optional sign is read, then the longest subject sequence; what follows is
ignored. The finite outcome `finite negative m q` stands for the `float` `± m * 2 ^ q`. -/
def strtof (s : String) : Conversion :=
  match readSign (s.toList.dropWhile isspace) with
  | (negative, cs) =>
    match readSubject cs with
    | .none => .noConversion
    | .infinity => .infinity negative
    | .notANumber => .notANumber
    | .number m base k =>
      match roundToFloat (m * base ^ k.toNat) (base ^ (-k).toNat) with
      | some (m, q) => .finite negative m q
      | none => .rangeError

/-- Model of `std::stof(str)`: the `float` that `strtof` reads; `std::invalid_argument` when
nothing can be converted, `std::out_of_range` when `strtof` sets `ERANGE`. -/
def stof (s : String) : Except String float :=
  match strtof s with
  | .noConversion => .error "std::invalid_argument"
  | .rangeError => .error "std::out_of_range"
  | .infinity negative => .ok (.inf negative)
  | .notANumber => .ok .nan
  | .finite negative m q => .ok (.fin ((if negative then -1 else 1) * (m : ℚ) * 2 ^ q))

/-! ## Model configuration -/

/-- The density as the code observes it: the names of the leaf nodes of its expression
tree, which are nodes of the workspace. -/
structure RooAbsPdf where
  leaves : List String
  deriving DecidableEq

/-- Model of `RooAbsArg::dependsOn` for a node tested against the density. -/
def RooAbsPdf.dependsOn (pdf : RooAbsPdf) (v : RooAbsArg) : Bool :=
  decide (v.name ∈ pdf.leaves)

/-- Model of `RooStats::ModelConfig`: the workspace it lives in, the density and the four
sets, each possibly not defined (a null pointer). A set is the list of the names of its
members. -/
structure ModelConfig where
  ws : RooWorkspace
  pdf : Option RooAbsPdf
  observables : Option (List String)
  parametersOfInterest : Option (List String)
  nuisanceParameters : Option (List String)
  globalObservables : Option (List String)
  deriving DecidableEq

/-- The nodes an iteration over a set visits, in the order of the set. -/
def RooWorkspace.members (ws : RooWorkspace) (set : List String) : List RooAbsArg :=
  set.filterMap ws.find

/-- Model of `RooArgSet::add` for one element: a set holds a name once. -/
def setAdd (set : List String) (name : String) : List String :=
  if name ∈ set then set else set ++ [name]

/-- Model of `RooArgSet::add` for a collection. -/
def setAddAll (set : List String) (names : List String) : List String :=
  names.foldl setAdd set

/-- Model of `RooAbsPdf::getParameters(observables)`: the leaves of the density that are
not observables. -/
def RooAbsPdf.getParameters (pdf : RooAbsPdf) (ws : RooWorkspace) (obs : List String) :
    List RooAbsArg :=
  ws.members (pdf.leaves.filter (fun n => decide (n ∉ obs)))

/-! ## `fitTool::checkModel` -/

/-- The local variables of `checkModel` that the loops update, with the
NuisanceParameters set of the model, which the third loop edits in place. -/
structure CheckState where
  ok : Bool
  errors : String
  allowedToFloat : List String
  nuisanceParameters : List String
  deriving DecidableEq

/-- The loop over the parameters of interest (lines 41-52). -/
def checkPOIs (pdf : RooAbsPdf) : List RooAbsArg → CheckState → CheckState
  | [], s => s
  | a :: rest, s =>
    if !a.isRealVar then
      checkPOIs pdf rest { s with
        errors := s.errors ++ "ERROR: parameter of interest " ++ a.name ++ " is a "
          ++ a.className ++ " and not a RooRealVar\n"
        ok := false }
    else if !pdf.dependsOn a then
      checkPOIs pdf rest { s with
        errors := s.errors ++ "ERROR: pdf does not depend on parameter of interest "
          ++ a.name ++ "\n"
        ok := false }
    else checkPOIs pdf rest { s with allowedToFloat := setAdd s.allowedToFloat a.name }

/-- The loop over the nuisance parameters (lines 58-75). -/
def checkNPs (pdf : RooAbsPdf) : List RooAbsArg → CheckState → CheckState
  | [], s => s
  | a :: rest, s =>
    if !a.isRealVar then
      checkNPs pdf rest { s with
        errors := s.errors ++ "ERROR: nuisance parameter " ++ a.name ++ " is a "
          ++ a.className ++ " and not a RooRealVar\n"
        ok := false }
    else if a.isConstant then
      checkNPs pdf rest { s with
        errors := s.errors ++ "ERROR: nuisance parameter " ++ a.name ++ " is constant\n"
        ok := false }
    else if !pdf.dependsOn a then
      checkNPs pdf rest { s with
        errors := s.errors ++ "WARNING: pdf does not depend on nuisance parameter, removing "
          ++ a.name ++ "\n"
        nuisanceParameters := s.nuisanceParameters.filter (fun n => decide (n ≠ a.name)) }
    else checkNPs pdf rest { s with allowedToFloat := setAdd s.allowedToFloat a.name }

/-- The loop over the global observables (lines 81-86). -/
def checkGOs (pdf : RooAbsPdf) : List RooAbsArg → CheckState → CheckState
  | [], s => s
  | a :: rest, s =>
    if !a.isRealVar then
      checkGOs pdf rest { s with
        ok := false
        errors := s.errors ++ "ERROR: global observable " ++ a.name ++ " is a "
          ++ a.className ++ " and not a RooRealVar\n" }
    else if !a.isConstant then
      checkGOs pdf rest { s with
        ok := false
        errors := s.errors ++ "ERROR: global observable " ++ a.name ++ " is not constant\n" }
    else if !pdf.dependsOn a then
      checkGOs pdf rest { s with
        errors := s.errors ++ "WARNING: pdf does not depend on global observable "
          ++ a.name ++ "\n" }
    else checkGOs pdf rest s

/-- The loop over the remaining parameters of the density (lines 92-97). -/
def checkRest : List RooAbsArg → CheckState → CheckState
  | [], s => s
  | a :: rest, s =>
    if a.isConstant || decide (a.name ∈ s.allowedToFloat) then checkRest rest s
    else if a.flatParam then checkRest rest s
    else
      checkRest rest { s with
        errors := s.errors ++ "WARNING: pdf parameter " ++ a.name ++ " (type " ++ a.className
          ++ ")" ++ " is not allowed to float (it's not nuisance, poi, observable or global observable\n" }

/-- The body of `checkModel` from line 36 on, for a model whose density and Observables are
present: the state of the local variables when line 99 is reached. -/
def checkLoops (model : ModelConfig) (pdf : RooAbsPdf) (obs : List String) : CheckState :=
  let s0 : CheckState :=
    { ok := true, errors := ""
      allowedToFloat := setAddAll [] ((model.ws.members obs).map RooAbsArg.name)
      nuisanceParameters := model.nuisanceParameters.getD [] }
  let s1 :=
    match model.parametersOfInterest with
    | none =>
      { s0 with ok := false
                errors := s0.errors ++ "ERROR: model does not define parameters of interest.\n" }
    | some poi => checkPOIs pdf (model.ws.members poi) s0
  let s2 :=
    match model.nuisanceParameters with
    | none => s1
    | some np => checkNPs pdf (model.ws.members np) s1
  let s3 :=
    match model.globalObservables with
    | none => s2
    | some go => checkGOs pdf (model.ws.members go) s2
  checkRest (pdf.getParameters model.ws obs) s3

/-- Model of `fitTool::checkModel(model, throwOnFail)`: what the call returns or throws,
and the model as the call leaves it. -/
def checkModel (model : ModelConfig) (throwOnFail : Bool) : Except String Bool × ModelConfig :=
  match model.pdf with
  | none => (.error "Model without Pdf", model)
  | some pdf =>
    match model.observables with
    | none =>
      let errors := "ERROR: model does not define observables.\n"
      if throwOnFail then (.error errors, model) else (.ok false, model)
    | some obs =>
      let s := checkLoops model pdf obs
      let model' :=
        { model with nuisanceParameters := model.nuisanceParameters.map (fun _ => s.nuisanceParameters) }
      if !s.ok && throwOnFail then (.error s.errors, model') else (.ok s.ok, model')

/-! ## Parameter preparation in `main` -/

/-- The branch of the loop over the POI directives taken for three value tokens
(lines 231-233), applied to the variable. -/
def applyRangeDirective (value low high : float) (v : RooAbsArg) : RooAbsArg :=
  let v := v.setRange low high
  let v := v.setVal value
  v.setConstant false

/-- The branch of the loop over the POI directives taken for any other number of value
tokens (lines 235-242), applied to the variable. The comparisons are made in `double`, the
products `2 * value` and `-2 * abs(value)` in `float`. -/
def applyValueDirective (value : float) (v : RooAbsArg) : RooAbsArg :=
  let v := if value > v.getMax then v.setRange v.getMin (float.scale 2 value) else v
  let v :=
    if value < v.getMin then v.setRange (float.scale (-2) (float.abs value)) v.getMax else v
  let v := v.setVal value
  v.setConstant true

/-- One turn of the loop over the POI directives (lines 217-250): `poiStr` is
`poiStrs[ipoi]`; the workspace and the set `fitPOIs` are updated. Reading an element a
vector does not have and an exception of `std::stof` end the run. The conversion `std::stof`
belongs to the C++ library; the loop is given for any conversion `stof`. -/
def poiDirective (stof : String → Except String float) (ws : RooWorkspace)
    (fitPOIs : List String) (poiStr : String) : Except String (RooWorkspace × List String) :=
  match Tokenize poiStr "=" with
  | [] => .error "poiTerms[0]"
  | poiName :: terms =>
    match ws.var poiName with
    | none => .ok (ws, fitPOIs)
    | some _ =>
      let fitPOIs := setAdd fitPOIs poiName
      match terms with
      | term :: _ =>
        let poiVals := Tokenize term "_"
        if poiVals.length = 3 then
          match stof (poiVals.getD 1 ""), stof (poiVals.getD 2 ""), stof (poiVals.getD 0 "") with
          | .ok low, .ok high, .ok value =>
            .ok (ws.modify poiName (applyRangeDirective value low high), fitPOIs)
          | .error e, _, _ => .error e
          | _, .error e, _ => .error e
          | _, _, .error e => .error e
        else
          match poiVals with
          | [] => .error "poiVals[0]"
          | first :: _ =>
            match stof first with
            | .ok value => .ok (ws.modify poiName (applyValueDirective value), fitPOIs)
            | .error e => .error e
      | [] => .ok (ws.modify poiName (fun v => v.setConstant false), fitPOIs)

/-- The loop over the POI directives (lines 216-251). -/
def poiDirectives (stof : String → Except String float) : List String → RooWorkspace →
    List String → Except String (RooWorkspace × List String)
  | [], ws, fitPOIs => .ok (ws, fitPOIs)
  | poiStr :: rest, ws, fitPOIs =>
    match poiDirective stof ws fitPOIs poiStr with
    | .ok (ws, fitPOIs) => poiDirectives stof rest ws fitPOIs
    | .error e => .error e

/-- Modelled from the spec: `utils::setAllConstant` is not among the sources. The spec says
a set is forced constant or forced non-constant: the flag of every member is set. -/
def setAllConstant (ws : RooWorkspace) (set : List String) (constant : Bool) : RooWorkspace :=
  set.foldl (fun ws name => ws.modify name (fun v => v.setConstant constant)) ws

/-- The inner loop that fixes nuisance parameters (lines 204-207): it runs over the
selected members and stops at the first that is not a `RooRealVar`. -/
def fixSelected : List RooAbsArg → RooWorkspace → RooWorkspace
  | [], ws => ws
  | a :: rest, ws =>
    if a.isRealVar then fixSelected rest (ws.modify a.name (fun v => v.setConstant true)) else ws

/-- The loop over the patterns of the fix-list (lines 202-208). -/
def fixNuisanceParameters (np : List String) : List String → RooWorkspace → RooWorkspace
  | [], ws => ws
  | pattern :: rest, ws =>
    let fixNPs := np.filter (fun n => wildcardMatch pattern.toList n.toList)
    fixNuisanceParameters np rest (fixSelected (ws.members fixNPs) ws)

/-- The options `main` reads while it prepares the model: `_checkWS`, and the texts of
`--fixNP` and `--poi` when given. -/
structure Options where
  checkWS : Bool
  fixNP : Option String
  poi : Option String

/-- Lines 186-262 of `main`: the model as `main` hands it to the fit. Following a null
pointer, and an exception leaving `main`, end the run. -/
def prepare (opts : Options) (mc : ModelConfig) : Except String ModelConfig :=
  match mc.globalObservables, mc.nuisanceParameters, mc.parametersOfInterest with
  | some go, some np, some poi =>
    let ws := setAllConstant mc.ws go true
    let ws := setAllConstant ws np false
    let ws := setAllConstant ws poi true
    let mc := { mc with ws := ws }
    let checked : Except String ModelConfig :=
      if opts.checkWS then
        match checkModel mc true with
        | (.ok _, mc) => .ok mc
        | (.error e, _) => .error e
      else .ok mc
    match checked with
    | .error e => .error e
    | .ok mc =>
      let fixed : Except String RooWorkspace :=
        match opts.fixNP with
        | some fixNPStr =>
          match mc.nuisanceParameters with
          | some np => .ok (fixNuisanceParameters np (Tokenize fixNPStr ",") mc.ws)
          | none => .error "GetNuisanceParameters"
        | none => .ok mc.ws
      match fixed with
      | .error e => .error e
      | .ok ws =>
        match opts.poi with
        | some poiStr =>
          match poiDirectives stof (Tokenize poiStr ",") ws [] with
          | .ok (ws, fitPOIs) => .ok { mc with ws := ws, parametersOfInterest := some fitPOIs }
          | .error e => .error e
        | none =>
          match mc.parametersOfInterest with
          | some (firstPOI :: _) =>
            let ws := ws.modify firstPOI (fun v => v.setConstant false)
            .ok { mc with ws := ws, parametersOfInterest := some [firstPOI] }
          | _ => .error "firstPOI"
  | _, _, _ => .error "setAllConstant"

/-! ## `fitTool::profileToData` and the summary of `main` -/

/-- The members of `fitTool` that `profileToData` reads. -/
structure fitTool where
  minAlgo : String
  minTolerance : ℚ
  minStrat : Int
  nllOffset : Bool
  optConst : Int
  printLevel : Int
  useHESSE : Bool
  useMINOS : Bool

/-- The statuses the three calls on the `RooMinimizer` return: `minimize`, `hesse` and
`minos`. The minimizer is external; a call that is not made contributes nothing. -/
structure RooMinimizer where
  minimize : Int
  hesse : Int
  minos : Int

/-- Lines 132-144 of `fitTool::profileToData`: the status returned. `Int.land` is the
operator `&` of `int`. -/
def profileToData (fit : fitTool) (minim : RooMinimizer) : Int :=
  let status := minim.minimize
  let status := if fit.useHESSE then Int.land status minim.hesse else status
  let status := if fit.useMINOS then Int.land status minim.minos else status
  status

/-- Line 273 of `main`: the label of the summary. -/
def STATMSG (status : Int) : String :=
  if status ≠ 0 then "\x1b[91m STATUS FAILED \x1b[0m" else "\x1b[92m STATUS OK \x1b[0m"

/-- Lines 283-288 of `main`: whether the warning banner is printed. -/
def printsWarning (status : Int) : Bool :=
  decide (status ≠ 0)

/-! ## Definitions used in the statements -/

/-- The statuses of the stages that are enabled, in the order primary, HESSE, MINOS. -/
def enabledStatuses (fit : fitTool) (minim : RooMinimizer) : List Int :=
  minim.minimize :: ((if fit.useHESSE then [minim.hesse] else [])
    ++ (if fit.useMINOS then [minim.minos] else []))

/-- The bitwise AND of a non-empty list of statuses, taken from the left. -/
def andOfStatuses : List Int → Int
  | [] => -1
  | s :: rest => rest.foldl Int.land s

/-- The value of the local `ok` of `checkModel` when the call ends. -/
def validity (model : ModelConfig) : Bool :=
  match model.pdf, model.observables with
  | none, _ => true
  | some _, none => false
  | some pdf, some obs => (checkLoops model pdf obs).ok

/-- The condition under which the loop over the nuisance parameters removes a node
(lines 59-73). -/
def unusedNode (pdf : RooAbsPdf) (a : RooAbsArg) : Bool :=
  a.isRealVar && !a.isConstant && !pdf.dependsOn a

/-- Whether a name of the NuisanceParameters set refers to a node the loop removes. -/
def unusedNP (ws : RooWorkspace) (pdf : RooAbsPdf) (n : String) : Bool :=
  match ws.find n with
  | some a => unusedNode pdf a
  | none => false

/-- Every parameter of interest is a `RooRealVar` the density depends on, and the set is
defined. -/
def poisValid (model : ModelConfig) (pdf : RooAbsPdf) : Bool :=
  match model.parametersOfInterest with
  | none => false
  | some poi => (model.ws.members poi).all (fun a => a.isRealVar && pdf.dependsOn a)

/-- Every nuisance parameter is a `RooRealVar` that is not constant. -/
def npsValid (model : ModelConfig) : Bool :=
  match model.nuisanceParameters with
  | none => true
  | some np => (model.ws.members np).all (fun a => a.isRealVar && !a.isConstant)

/-- Every global observable is a `RooRealVar` that is constant. -/
def gosValid (model : ModelConfig) : Bool :=
  match model.globalObservables with
  | none => true
  | some go => (model.ws.members go).all (fun a => a.isRealVar && a.isConstant)

/-- The workspace after the three calls of lines 187-189. -/
def defaulted (ws : RooWorkspace) (go np poi : List String) : RooWorkspace :=
  setAllConstant (setAllConstant (setAllConstant ws go true) np false) poi true

/-! ## Sample workspaces and models -/

/-- A variable `mu`, constant at 0, with range `[-10, 10]`. -/
def muNode : RooAbsArg :=
  { name := "mu", className := "RooRealVar", isRealVar := true, val := .fin 0, min := .fin (-10),
    max := .fin 10,
    constant := true, flatParam := false }

/-- A workspace that owns `muNode` alone. -/
def wsMu : RooWorkspace := { nodes := [muNode] }

/-- A variable `mu`, constant at -7, with range `[-10, -5]`. -/
def muNegative : RooAbsArg :=
  { name := "mu", className := "RooRealVar", isRealVar := true, val := .fin (-7), min := .fin (-10),
    max := .fin (-5),
    constant := true, flatParam := false }

/-- A workspace that owns `muNegative` alone. -/
def wsNegative : RooWorkspace := { nodes := [muNegative] }

/-- A variable `mu`, floating at 0, with range `[-10, 10]`. -/
def muFree : RooAbsArg :=
  { name := "mu", className := "RooRealVar", isRealVar := true, val := .fin 0, min := .fin (-10),
    max := .fin 10,
    constant := false, flatParam := false }

/-- A variable `mu` at 1 with range `[7/10, 2]`. -/
def muTight : RooAbsArg :=
  { name := "mu", className := "RooRealVar", isRealVar := true, val := .fin 1,
    min := .fin (7 / 10), max := .fin 2, constant := true, flatParam := false }

/-- A workspace that owns `muFree` alone. -/
def wsFree : RooWorkspace := { nodes := [muFree] }

/-- An observable `x`. -/
def xNode : RooAbsArg :=
  { name := "x", className := "RooRealVar", isRealVar := true, val := .fin 0, min := .fin (-10),
    max := .fin 10,
    constant := false, flatParam := false }

/-- A variable `theta` that is constant. -/
def thetaFixed : RooAbsArg :=
  { name := "theta", className := "RooRealVar", isRealVar := true, val := .fin 0, min := .fin (-5),
    max := .fin 5,
    constant := true, flatParam := false }

/-- A variable `theta` that floats. -/
def thetaFree : RooAbsArg :=
  { name := "theta", className := "RooRealVar", isRealVar := true, val := .fin 0, min := .fin (-5),
    max := .fin 5,
    constant := false, flatParam := false }

/-- A variable `nom_theta` that floats. -/
def nomTheta : RooAbsArg :=
  { name := "nom_theta", className := "RooRealVar", isRealVar := true, val := .fin 0, min := .fin (-5),
    max := .fin 5, constant := false, flatParam := false }

/-- A model whose only nuisance parameter is used by the density and is constant. -/
def modelFixedNP : ModelConfig :=
  { ws := { nodes := [xNode, muNode, thetaFixed] }
    pdf := some { leaves := ["x", "mu", "theta"] }
    observables := some ["x"]
    parametersOfInterest := some ["mu"]
    nuisanceParameters := some ["theta"]
    globalObservables := some [] }

/-- A model whose only nuisance parameter is not used by the density and is constant. -/
def modelUnusedFixedNP : ModelConfig :=
  { ws := { nodes := [xNode, muNode, thetaFixed] }
    pdf := some { leaves := ["x", "mu"] }
    observables := some ["x"]
    parametersOfInterest := some ["mu"]
    nuisanceParameters := some ["theta"]
    globalObservables := some [] }

/-- A model whose only nuisance parameter is not used by the density and floats. -/
def modelUnusedNP : ModelConfig :=
  { ws := { nodes := [xNode, muNode, thetaFree] }
    pdf := some { leaves := ["x", "mu"] }
    observables := some ["x"]
    parametersOfInterest := some ["mu"]
    nuisanceParameters := some ["theta"]
    globalObservables := some [] }

/-- A model in which `theta` is both a nuisance parameter and a global observable. -/
def modelOverlap : ModelConfig :=
  { ws := { nodes := [xNode, muNode, thetaFixed] }
    pdf := some { leaves := ["x", "mu", "theta"] }
    observables := some ["x"]
    parametersOfInterest := some ["mu"]
    nuisanceParameters := some ["theta"]
    globalObservables := some ["theta"] }

/-- A model with disjoint sets: observable `x`, parameter of interest `mu`, nuisance
parameter `theta`, global observable `nom_theta`. -/
def modelDisjoint : ModelConfig :=
  { ws := { nodes := [xNode, muNode, thetaFixed, nomTheta] }
    pdf := some { leaves := ["x", "mu", "theta", "nom_theta"] }
    observables := some ["x"]
    parametersOfInterest := some ["mu"]
    nuisanceParameters := some ["theta"]
    globalObservables := some ["nom_theta"] }

/-- A `fitTool` with HESSE enabled and MINOS disabled. -/
def fitHesse : fitTool :=
  { minAlgo := "Minuit2", minTolerance := 1 / 1000, minStrat := 1, nllOffset := true, optConst := 2,
    printLevel := 2, useHESSE := true, useMINOS := false }

/-! ## Status aggregation -/

theorem land_zero_left (n : Int) : Int.land 0 n = 0 := by
  cases n with
  | ofNat n => show ((0 &&& n : Nat) : Int) = 0; simp
  | negSucc n => show ((Nat.ldiff 0 n : Nat) : Int) = 0; simp [Nat.ldiff]

theorem land_zero_right (m : Int) : Int.land m 0 = 0 := by
  cases m with
  | ofNat m => show ((m &&& 0 : Nat) : Int) = 0; simp
  | negSucc m => show ((Nat.ldiff 0 m : Nat) : Int) = 0; simp [Nat.ldiff]

theorem land_ne_zero {m n : Int} (h : Int.land m n ≠ 0) : m ≠ 0 ∧ n ≠ 0 := by
  constructor
  · rintro rfl; exact h (land_zero_left n)
  · rintro rfl; exact h (land_zero_right m)

/-- C3. The status `fitTool::profileToData` returns is the bitwise AND of the statuses of
the enabled stages, in the order primary, HESSE, MINOS; with HESSE and MINOS both disabled
it is the status of the primary minimization. -/
theorem profileToData_eq_and_of_enabled (fit : fitTool) (minim : RooMinimizer) :
    profileToData fit minim = andOfStatuses (enabledStatuses fit minim) ∧
    (fit.useHESSE = false → fit.useMINOS = false → profileToData fit minim = minim.minimize) := by
  cases hH : fit.useHESSE <;> cases hM : fit.useMINOS <;>
    simp [profileToData, andOfStatuses, enabledStatuses, hH, hM]

/-! ## The order of `double` -/

theorem double.lt_iff (x y : double) : x < y ↔ double.lt x y = true := Iff.rfl

theorem double.le_iff (x y : double) : x ≤ y ↔ double.le x y = true := Iff.rfl

theorem double.not_lt_of_le_of_lt {a b c : double} (h1 : a ≤ b) (h2 : b < c) : ¬ c < a := by
  rw [double.le_iff] at h1
  rw [double.lt_iff] at h2 ⊢
  rcases a with _ | (_ | _) | a <;> rcases b with _ | (_ | _) | b <;>
    rcases c with _ | (_ | _) | c <;> simp [double.lt, double.le] at h1 h2 ⊢
  all_goals linarith

theorem double.not_lt_of_lt_of_le {a b c : double} (h1 : c < a) (h2 : a ≤ b) : ¬ b < c := by
  rw [double.le_iff] at h2
  rw [double.lt_iff] at h1 ⊢
  rcases a with _ | (_ | _) | a <;> rcases b with _ | (_ | _) | b <;>
    rcases c with _ | (_ | _) | c <;> simp [double.lt, double.le] at h1 h2 ⊢
  all_goals linarith

theorem double.not_lt_of_le {a b : double} (h : a ≤ b) : ¬ b < a := by
  rw [double.le_iff] at h
  rw [double.lt_iff]
  rcases a with _ | (_ | _) | a <;> rcases b with _ | (_ | _) | b <;>
    simp [double.lt, double.le] at h ⊢
  all_goals linarith

theorem double.le_trans {a b c : double} (h1 : a ≤ b) (h2 : b ≤ c) : a ≤ c := by
  rw [double.le_iff] at h1 h2 ⊢
  rcases a with _ | (_ | _) | a <;> rcases b with _ | (_ | _) | b <;>
    rcases c with _ | (_ | _) | c <;> simp [double.lt, double.le] at h1 h2 ⊢
  all_goals linarith

theorem double.le_of_not_lt {a b : double} (h : ¬ b < a) (ha : a ≠ .nan) (hb : b ≠ .nan) :
    a ≤ b := by
  rw [double.lt_iff] at h
  rw [double.le_iff]
  rcases a with _ | (_ | _) | a <;> rcases b with _ | (_ | _) | b <;>
    simp [double.lt, double.le] at h ha hb ⊢
  all_goals linarith

theorem double.ne_nan_of_le {a b : double} (h : a ≤ b) : a ≠ .nan ∧ b ≠ .nan := by
  rw [double.le_iff] at h
  rcases a with _ | (_ | _) | a <;> rcases b with _ | (_ | _) | b <;>
    simp [double.le] at h ⊢

theorem double.ne_nan_of_lt {a b : double} (h : a < b) : a ≠ .nan ∧ b ≠ .nan := by
  rw [double.lt_iff] at h
  rcases a with _ | (_ | _) | a <;> rcases b with _ | (_ | _) | b <;>
    simp [double.lt] at h ⊢

theorem double.le_of_lt {a b : double} (h : a < b) : a ≤ b := by
  rw [double.lt_iff] at h
  rw [double.le_iff]
  rcases a with _ | (_ | _) | a <;> rcases b with _ | (_ | _) | b <;>
    simp [double.lt, double.le] at h ⊢
  all_goals linarith

/-- A `float` that is not negative is at most its double, also when the product overflows. -/
theorem le_scale_two {v : float} (h : double.fin 0 ≤ v) : v ≤ float.scale 2 v := by
  rw [double.le_iff] at h ⊢
  rcases v with _ | (_ | _) | q
  · simp [double.le] at h
  · simp [float.scale, double.le]
  · simp [double.le] at h
  · simp only [double.le, decide_eq_true_eq] at h
    simp only [float.scale]
    split_ifs with hq
    · have : ¬ (2 * q < 0) := by linarith
      simp [double.le, this]
    · simp only [double.le, decide_eq_true_eq]; linarith

/-- The product `-2 * abs(v)` is at most `v`, also when it overflows. -/
theorem scale_neg_two_abs_le {v : float} (h : v ≠ .nan) :
    float.scale (-2) (float.abs v) ≤ v := by
  rw [double.le_iff]
  rcases v with _ | (_ | _) | q
  · exact absurd rfl h
  · simp [float.scale, float.abs, double.le]
  · simp [float.scale, float.abs, double.le]
  · have h1 : -|q| ≤ q := neg_abs_le q
    have h2 : 0 ≤ |q| := abs_nonneg q
    simp only [float.abs, float.scale]
    split_ifs with hq
    · by_cases h0 : (-2 * |q| < 0)
      · rw [decide_eq_true h0]
        rfl
      · exfalso
        have : |q| = 0 := by linarith
        rw [this] at hq
        norm_num [FLT_MAX] at hq
    · simp only [double.le, decide_eq_true_eq]; linarith

/-! ## Workspace lemmas -/

theorem find_some_name {ws : RooWorkspace} {n : String} {a : RooAbsArg}
    (h : ws.find n = some a) : a.name = n := by
  have := List.find?_some h
  simpa using this

theorem find_modifyNode (f : RooAbsArg → RooAbsArg) (hf : ∀ a, (f a).name = a.name)
    (n m : String) (l : List RooAbsArg) :
    (modifyNode n f l).find? (fun a => decide (a.name = m)) =
      if m = n then (l.find? (fun a => decide (a.name = m))).map f
      else l.find? (fun a => decide (a.name = m)) := by
  induction l with
  | nil => simp [modifyNode]
  | cons a rest ih =>
    by_cases han : a.name = n
    · by_cases hmn : m = n
      · subst hmn
        simp [modifyNode, han, hf]
      · subst han
        have hne : ¬ a.name = m := fun h => hmn h.symm
        have hne2 : ¬ (f a).name = m := by rw [hf]; exact hne
        simp [modifyNode, hmn, List.find?_cons, hne, hne2]
    · by_cases ham : a.name = m
      · have hmn : ¬ m = n := fun h => han (ham.trans h)
        simp [modifyNode, han, ham, hmn]
      · simp only [modifyNode, han, if_false, List.find?_cons, ham, decide_False, ih]

theorem find_modify (ws : RooWorkspace) (f : RooAbsArg → RooAbsArg)
    (hf : ∀ a, (f a).name = a.name) (n m : String) :
    (ws.modify n f).find m = if m = n then (ws.find m).map f else ws.find m :=
  find_modifyNode f hf n m ws.nodes

theorem var_find {ws : RooWorkspace} {n : String} {p : RooAbsArg} (h : ws.var n = some p) :
    ws.find n = some p ∧ p.isRealVar = true := by
  unfold RooWorkspace.var at h
  cases hf : ws.find n with
  | none => simp [hf] at h
  | some a =>
    simp only [hf] at h
    by_cases hr : a.isRealVar = true
    · simp [hr] at h; subst h; exact ⟨rfl, hr⟩
    · simp [hr] at h

theorem var_modify (ws : RooWorkspace) (f : RooAbsArg → RooAbsArg)
    (hf : ∀ a, (f a).name = a.name) (hr : ∀ a, (f a).isRealVar = a.isRealVar)
    {n : String} {p : RooAbsArg} (h : ws.var n = some p) :
    (ws.modify n f).var n = some (f p) := by
  obtain ⟨hfind, hreal⟩ := var_find h
  simp [RooWorkspace.var, find_modify ws f hf, hfind, hr, hreal]

/-! ## The POI directives -/

theorem applyValueDirective_name (value : float) (a : RooAbsArg) :
    (applyValueDirective value a).name = a.name := by
  unfold applyValueDirective
  simp only [RooAbsArg.setConstant, RooAbsArg.setVal, RooAbsArg.setRange, RooAbsArg.getMin,
    RooAbsArg.getMax]
  split_ifs <;> rfl

theorem applyValueDirective_isRealVar (value : float) (a : RooAbsArg) :
    (applyValueDirective value a).isRealVar = a.isRealVar := by
  unfold applyValueDirective
  simp only [RooAbsArg.setConstant, RooAbsArg.setVal, RooAbsArg.setRange, RooAbsArg.getMin,
    RooAbsArg.getMax]
  split_ifs <;> rfl

theorem applyValueDirective_constant (value : float) (a : RooAbsArg) :
    (applyValueDirective value a).constant = true := rfl

theorem applyValueDirective_val (value : float) (a : RooAbsArg) :
    (applyValueDirective value a).val = value := rfl

theorem applyValueDirective_above {value : float} {a : RooAbsArg} (hr : a.min ≤ a.max)
    (h : value > a.max) :
    (applyValueDirective value a).max = float.scale 2 value ∧
      (applyValueDirective value a).min = a.min := by
  have h2 : ¬ value < a.min := double.not_lt_of_le_of_lt hr h
  simp [applyValueDirective, RooAbsArg.setConstant, RooAbsArg.setVal, RooAbsArg.setRange,
    RooAbsArg.getMin, RooAbsArg.getMax, h, h2]

theorem applyValueDirective_below {value : float} {a : RooAbsArg} (hr : a.min ≤ a.max)
    (h : value < a.min) :
    (applyValueDirective value a).min = float.scale (-2) (float.abs value) ∧
      (applyValueDirective value a).max = a.max := by
  have h1 : ¬ value > a.max := double.not_lt_of_lt_of_le h hr
  simp [applyValueDirective, RooAbsArg.setConstant, RooAbsArg.setVal, RooAbsArg.setRange,
    RooAbsArg.getMin, RooAbsArg.getMax, h, h1]

theorem applyValueDirective_inside {value : float} {a : RooAbsArg}
    (h1 : a.min ≤ value) (h2 : value ≤ a.max) :
    (applyValueDirective value a).min = a.min ∧ (applyValueDirective value a).max = a.max := by
  have h3 : ¬ value < a.min := double.not_lt_of_le h1
  have h4 : ¬ value > a.max := double.not_lt_of_le h2
  simp [applyValueDirective, RooAbsArg.setConstant, RooAbsArg.setVal, RooAbsArg.setRange,
    RooAbsArg.getMin, RooAbsArg.getMax, h3, h4]

/-- The product `2 * value` is the exact double of a finite value within the `float` range,
and the product `-2 * abs(value)` the exact multiple. -/
theorem scale_exact (q : ℚ) (h : |2 * q| ≤ FLT_MAX) :
    float.scale 2 (.fin q) = .fin (2 * q) ∧
      float.scale (-2) (float.abs (.fin q)) = .fin (-2 * |q|) := by
  have h1 : ¬ FLT_MAX < |2 * q| := not_lt.mpr h
  have h2 : ¬ FLT_MAX < |(-2 : ℚ) * (|q|)| := by
    have h3 : |(-2 : ℚ) * (|q|)| = |2 * q| := by
      rw [abs_mul, abs_mul, abs_abs]; norm_num
    rw [h3]; exact h1
  constructor
  · simp only [float.scale, if_neg h1]
  · simp only [float.abs, float.scale, if_neg h2]

/-- With a value list that does not have exactly three tokens, the loop takes the branch of
lines 235-242 with the first token. -/
theorem poiDirective_value {stof : String → Except String float} {ws : RooWorkspace}
    {fitPOIs : List String} {poiStr name term first : String} {terms others : List String}
    {p : RooAbsArg} {value : float}
    (hterms : Tokenize poiStr "=" = name :: term :: terms)
    (hvar : ws.var name = some p)
    (hvals : Tokenize term "_" = first :: others)
    (hlen : others.length ≠ 2)
    (hstof : stof first = .ok value) :
    poiDirective stof ws fitPOIs poiStr =
      .ok (ws.modify name (applyValueDirective value), setAdd fitPOIs name) := by
  have hlen3 : ¬ (others.length + 1 = 3) := by omega
  simp [poiDirective, hterms, hvar, hvals, hlen3, hstof]

/-- With exactly three value tokens the loop takes the branch of lines 231-233. -/
theorem poiDirective_range {stof : String → Except String float} {ws : RooWorkspace}
    {fitPOIs : List String} {poiStr name term t0 t1 t2 : String} {terms : List String}
    {p : RooAbsArg} {value low high : float}
    (hterms : Tokenize poiStr "=" = name :: term :: terms)
    (hvar : ws.var name = some p)
    (hvals : Tokenize term "_" = [t0, t1, t2])
    (h0 : stof t0 = .ok value) (h1 : stof t1 = .ok low) (h2 : stof t2 = .ok high) :
    poiDirective stof ws fitPOIs poiStr =
      .ok (ws.modify name (applyRangeDirective value low high), setAdd fitPOIs name) := by
  simp [poiDirective, hterms, hvar, hvals, h0, h1, h2]

theorem applyRangeDirective_name (value low high : float) (a : RooAbsArg) :
    (applyRangeDirective value low high a).name = a.name := rfl

theorem applyRangeDirective_isRealVar (value low high : float) (a : RooAbsArg) :
    (applyRangeDirective value low high a).isRealVar = a.isRealVar := rfl

/-- The conversion of a token that `strtof` reads as the finite value `m * 2 ^ q`. -/
theorem stof_finite (s : String) (m : Nat) (q : Int) (x : ℚ)
    (h : strtof s = .finite false m q) (hx : (m : ℚ) * 2 ^ q = x) :
    stof s = .ok (.fin x) := by
  simp only [stof, h, if_false, Bool.false_eq_true]
  rw [one_mul, hx]

theorem stof_20 : stof "20" = .ok (.fin 20) :=
  stof_finite "20" 10485760 (-19) 20 (by decide) (by norm_num)

theorem stof_0 : stof "0" = .ok (.fin 0) :=
  stof_finite "0" 0 0 0 (by decide) (by norm_num)

theorem stof_5 : stof "5" = .ok (.fin 5) :=
  stof_finite "5" 10485760 (-21) 5 (by decide) (by norm_num)

theorem stof_7 : stof "7" = .ok (.fin 7) :=
  stof_finite "7" 14680064 (-21) 7 (by decide) (by norm_num)

theorem stof_1_5 : stof "1.5" = .ok (.fin (3 / 2)) :=
  stof_finite "1.5" 12582912 (-23) (3 / 2) (by decide) (by norm_num)

theorem stof_neg_2 : stof "-2" = .ok (.fin (-2)) := by
  have h : strtof "-2" = .finite true 8388608 (-22) := by decide
  simp only [stof, h, if_true]
  norm_num

theorem scale_two_20 : float.scale 2 (.fin 20) = .fin 40 := by
  rw [(scale_exact 20 (by norm_num [FLT_MAX])).1]; norm_num

theorem scale_two_neg_2 : float.scale 2 (.fin (-2)) = .fin (-4) := by
  rw [(scale_exact (-2) (by norm_num [FLT_MAX])).1]; norm_num

/-! ## The conversion on sample tokens -/

/-- The token `0.7` is converted to the nearest `float`, which is below 7/10. -/
theorem stof_0_7 : stof "0.7" = .ok (.fin (11744051 / 16777216)) :=
  stof_finite "0.7" 11744051 (-24) (11744051 / 16777216) (by decide) (by norm_num)

set_option maxRecDepth 8000 in
/-- The token `1e39` is beyond the range of `float`: `std::stof` throws. -/
theorem stof_1e39 : stof "1e39" = .error "std::out_of_range" := by
  have h : strtof "1e39" = .rangeError := by decide
  simp only [stof, h]

/-- The token `0x10` is read as a hexadecimal number. -/
theorem stof_0x10 : stof "0x10" = .ok (.fin 16) :=
  stof_finite "0x10" 8388608 (-19) 16 (by decide) (by norm_num)

set_option maxRecDepth 8000 in
/-- The product `2 * value` overflows to infinity for the `float` nearest to 3e38. -/
theorem scale_two_overflow :
    stof "3e38" = .ok (.fin (14791142 * 2 ^ 104)) ∧
    float.scale 2 (.fin (14791142 * 2 ^ 104)) = .inf false := by
  constructor
  · exact stof_finite "3e38" 14791142 104 (14791142 * 2 ^ 104) (by decide) (by norm_num)
  · norm_num [float.scale, FLT_MAX, abs_of_pos]

/-- The token `0.7` against a minimum of 7/10: the converted `float` is below the minimum, so
the branch of lines 238-240 is taken and the minimum becomes `-2 * abs(value)`. -/
theorem rounded_value_below_min :
    stof "0.7" = .ok (.fin (11744051 / 16777216)) ∧
    double.fin (11744051 / 16777216) < muTight.min ∧
    (applyValueDirective (.fin (11744051 / 16777216)) muTight).min
      = .fin (-2 * (11744051 / 16777216)) := by
  have hlt : double.fin (11744051 / 16777216) < muTight.min := by
    norm_num [double.lt_iff, double.lt, muTight]
  refine ⟨stof_0_7, hlt, ?_⟩
  rw [(@applyValueDirective_below (.fin (11744051 / 16777216)) muTight
    (by norm_num [double.le_iff, double.le, muTight]) hlt).1]
  rw [(scale_exact (11744051 / 16777216) (by norm_num [FLT_MAX, abs_of_pos])).2]
  norm_num [abs_of_pos]

/-- C8, the claim refuted. The directive `mu=20_30` has two value tokens; the loop raises no
error and uses the first: the parameter, floating at 0 in `[-10, 10]`, ends constant at 20
with range `[-10, 40]`. -/
theorem two_token_directive_accepted :
    Tokenize "mu=20_30" "=" = ["mu", "20_30"] ∧ Tokenize "20_30" "_" = ["20", "30"] ∧
    wsFree.var "mu" = some muFree ∧
    poiDirective stof wsFree [] "mu=20_30" =
      .ok (wsFree.modify "mu" (applyValueDirective (.fin 20)), ["mu"]) ∧
    (wsFree.modify "mu" (applyValueDirective (.fin 20))).var "mu"
      = some (applyValueDirective (.fin 20) muFree) ∧
    muFree.constant = false ∧ (applyValueDirective (.fin 20) muFree).constant = true ∧
    muFree.val = .fin 0 ∧ (applyValueDirective (.fin 20) muFree).val = .fin 20 ∧
    muFree.max = .fin 10 ∧ (applyValueDirective (.fin 20) muFree).max = .fin 40 := by
  have hvar : wsFree.var "mu" = some muFree := by rfl
  refine ⟨by decide, by decide, hvar, ?_, ?_, rfl, rfl, rfl, rfl, rfl, ?_⟩
  · exact @poiDirective_value stof wsFree [] "mu=20_30" "mu" "20_30" "20" [] ["30"] muFree
      (.fin 20) (by decide) hvar (by decide) (by decide) stof_20
  · exact var_modify wsFree _ (applyValueDirective_name (.fin 20))
      (applyValueDirective_isRealVar (.fin 20)) hvar
  · have h := (@applyValueDirective_above (.fin 20) muFree
      (by norm_num [double.le_iff, double.le, muFree])
      (by norm_num [gt_iff_lt, double.lt_iff, double.lt, muFree])).1
    rw [h]; exact scale_two_20

/-- C8, amended. A directive whose value part splits into two tokens, or into four or more,
and whose first token `std::stof` converts is applied by the loop of `main` as `name=first`:
no error is raised, the parameter ends constant at the value of the first token, with its
range widened as for one token; the other tokens are not read. -/
theorem malformed_directive_taken_as_value (stof : String → Except String float)
    (ws : RooWorkspace) (fitPOIs : List String)
    (poiStr name term first : String) (terms others : List String) (p : RooAbsArg)
    (value : float)
    (hterms : Tokenize poiStr "=" = name :: term :: terms)
    (hvals : Tokenize term "_" = first :: others)
    (hcount : (first :: others).length = 2 ∨ 4 ≤ (first :: others).length)
    (hstof : stof first = .ok value)
    (hvar : ws.var name = some p)
    (hrange : p.min ≤ p.max) :
    ∃ p', poiDirective stof ws fitPOIs poiStr =
        .ok (ws.modify name (applyValueDirective value), setAdd fitPOIs name) ∧
      (ws.modify name (applyValueDirective value)).var name = some p' ∧
      p'.constant = true ∧ p'.val = value ∧
      (value > p.max → p'.max = float.scale 2 value ∧ p'.min = p.min) ∧
      (value < p.min → p'.min = float.scale (-2) (float.abs value) ∧ p'.max = p.max) ∧
      (p.min ≤ value → value ≤ p.max → p'.min = p.min ∧ p'.max = p.max) :=
  ⟨_, poiDirective_value hterms hvar hvals
      (by simp only [List.length_cons] at hcount; omega) hstof,
    var_modify ws _ (applyValueDirective_name value) (applyValueDirective_isRealVar value) hvar,
    applyValueDirective_constant value p, applyValueDirective_val value p,
    applyValueDirective_above hrange, applyValueDirective_below hrange,
    applyValueDirective_inside⟩

/-- The directive `mu=20_30` on a parameter floating at 0 with range `[-10, 10]`. -/
theorem malformed_directive_taken_as_value_witness :
    ∃ p', poiDirective stof wsFree [] "mu=20_30" =
        .ok (wsFree.modify "mu" (applyValueDirective (.fin 20)), setAdd [] "mu") ∧
      (wsFree.modify "mu" (applyValueDirective (.fin 20))).var "mu" = some p' ∧
      p'.constant = true ∧ p'.val = .fin 20 := by
  obtain ⟨p', h1, h2, h3, h4, -⟩ :=
    malformed_directive_taken_as_value stof wsFree [] "mu=20_30" "mu" "20_30" "20" [] ["30"]
      muFree (.fin 20) (by decide) (by decide) (Or.inl (by decide)) stof_20 (by rfl)
      (by norm_num [double.le_iff, double.le, muFree])
  exact ⟨p', h1, h2, h3, h4⟩

theorem applyValueDirective_in_range {value : float} {a : RooAbsArg} (hr : a.min ≤ a.max)
    (h : value ≤ a.max ∨ double.fin 0 ≤ value) :
    (applyValueDirective value a).min ≤ (applyValueDirective value a).max ∧
    (applyValueDirective value a).min ≤ value ∧ value ≤ (applyValueDirective value a).max := by
  by_cases h1 : value > a.max
  · obtain ⟨hmax, hmin⟩ := applyValueDirective_above hr h1
    have h0 : double.fin 0 ≤ value := by
      rcases h with h | h
      · exact absurd h1 (double.not_lt_of_le h)
      · exact h
    have hmv : a.min ≤ value := double.le_trans hr (double.le_of_lt h1)
    have hvs : value ≤ float.scale 2 value := le_scale_two h0
    rw [hmax, hmin]
    exact ⟨double.le_trans hmv hvs, hmv, hvs⟩
  · by_cases h2 : value < a.min
    · obtain ⟨hmin, hmax⟩ := applyValueDirective_below hr h2
      have hsv : float.scale (-2) (float.abs value) ≤ value :=
        scale_neg_two_abs_le (double.ne_nan_of_lt h2).1
      have hvm : value ≤ a.max := double.le_trans (double.le_of_lt h2) hr
      rw [hmin, hmax]
      exact ⟨double.le_trans hsv hvm, hsv, hvm⟩
    · have hv : value ≠ .nan := by
        rcases h with h | h
        · exact (double.ne_nan_of_le h).1
        · exact (double.ne_nan_of_le h).2
      have hmv : a.min ≤ value := double.le_of_not_lt h2 (double.ne_nan_of_le hr).1 hv
      have hvm : value ≤ a.max := double.le_of_not_lt h1 hv (double.ne_nan_of_le hr).2
      obtain ⟨hmin, hmax⟩ := @applyValueDirective_inside value a hmv hvm
      rw [hmin, hmax]
      exact ⟨hr, hmv, hvm⟩

/-- C9, the claim refuted, at two directives. `mu=7_0_5` on a parameter at 0 in `[-10, 10]`
sets the range to `[0, 5]`, which does not hold the requested 7. `mu=-2` on a parameter at -7
in `[-10, -5]` moves the maximum to -4, below the requested -2. -/
theorem directive_value_outside_range :
    (muNode.min ≤ muNode.val ∧ muNode.val ≤ muNode.max ∧ wsMu.var "mu" = some muNode ∧
      poiDirective stof wsMu [] "mu=7_0_5" =
        .ok (wsMu.modify "mu" (applyRangeDirective (.fin 7) (.fin 0) (.fin 5)), ["mu"]) ∧
      (wsMu.modify "mu" (applyRangeDirective (.fin 7) (.fin 0) (.fin 5))).var "mu"
        = some (applyRangeDirective (.fin 7) (.fin 0) (.fin 5) muNode) ∧
      (applyRangeDirective (.fin 7) (.fin 0) (.fin 5) muNode).max = .fin 5 ∧
      (applyRangeDirective (.fin 7) (.fin 0) (.fin 5) muNode).max < .fin 7) ∧
    (muNegative.min ≤ muNegative.val ∧ muNegative.val ≤ muNegative.max ∧
      wsNegative.var "mu" = some muNegative ∧
      poiDirective stof wsNegative [] "mu=-2" =
        .ok (wsNegative.modify "mu" (applyValueDirective (.fin (-2))), ["mu"]) ∧
      (wsNegative.modify "mu" (applyValueDirective (.fin (-2)))).var "mu"
        = some (applyValueDirective (.fin (-2)) muNegative) ∧
      (applyValueDirective (.fin (-2)) muNegative).min = .fin (-10) ∧
      (applyValueDirective (.fin (-2)) muNegative).max = .fin (-4) ∧
      (applyValueDirective (.fin (-2)) muNegative).max < .fin (-2)) := by
  have hvar : wsMu.var "mu" = some muNode := by rfl
  have hvarN : wsNegative.var "mu" = some muNegative := by rfl
  have hmax : (applyValueDirective (.fin (-2)) muNegative).max = .fin (-4) ∧
      (applyValueDirective (.fin (-2)) muNegative).min = .fin (-10) := by
    have h := @applyValueDirective_above (.fin (-2)) muNegative
      (by norm_num [double.le_iff, double.le, muNegative])
      (by norm_num [gt_iff_lt, double.lt_iff, double.lt, muNegative])
    constructor
    · rw [h.1]; exact scale_two_neg_2
    · rw [h.2]; rfl
  refine ⟨⟨by norm_num [double.le_iff, double.le, muNode], by norm_num [double.le_iff, double.le, muNode],
      hvar, ?_, ?_, rfl, ?_⟩,
    ⟨by norm_num [double.le_iff, double.le, muNegative],
      by norm_num [double.le_iff, double.le, muNegative], hvarN, ?_, ?_, hmax.2, hmax.1, ?_⟩⟩
  · exact @poiDirective_range stof wsMu [] "mu=7_0_5" "mu" "7_0_5" "7" "0" "5" [] muNode
      (.fin 7) (.fin 0) (.fin 5) (by decide) hvar (by decide) stof_7 stof_0 stof_5
  · exact var_modify wsMu _ (applyRangeDirective_name (.fin 7) (.fin 0) (.fin 5))
      (applyRangeDirective_isRealVar (.fin 7) (.fin 0) (.fin 5)) hvar
  · show (double.fin 5) < double.fin 7
    norm_num [double.lt_iff, double.lt]
  · exact @poiDirective_value stof wsNegative [] "mu=-2" "mu" "-2" "-2" [] [] muNegative
      (.fin (-2)) (by decide) hvarN (by decide) (by decide) stof_neg_2
  · exact var_modify wsNegative _ (applyValueDirective_name (.fin (-2)))
      (applyValueDirective_isRealVar (.fin (-2))) hvarN
  · rw [hmax.1]; norm_num [double.lt_iff, double.lt]

/-- C9, amended. On a parameter with `min ≤ max`: a directive `name=value` whose converted
value is not both above `max` and negative, and a directive `name=value_low_high` whose
converted values satisfy `low ≤ value ≤ high`, leave a range `[min', max']` with
`min' ≤ max'` that holds the requested value, which is the value of the parameter. -/
theorem directive_value_in_range (stof : String → Except String float) (ws : RooWorkspace)
    (fitPOIs : List String) (poiStr name term : String) (terms : List String) (p : RooAbsArg)
    (hterms : Tokenize poiStr "=" = name :: term :: terms)
    (hvar : ws.var name = some p)
    (hrange : p.min ≤ p.max) :
    (∀ tok value, Tokenize term "_" = [tok] → stof tok = .ok value →
      (value ≤ p.max ∨ double.fin 0 ≤ value) →
      ∃ ws' fitPOIs' p', poiDirective stof ws fitPOIs poiStr = .ok (ws', fitPOIs') ∧
        ws'.var name = some p' ∧ p'.val = value ∧
        p'.min ≤ p'.max ∧ p'.min ≤ value ∧ value ≤ p'.max) ∧
    (∀ t0 t1 t2 value low high, Tokenize term "_" = [t0, t1, t2] →
      stof t0 = .ok value → stof t1 = .ok low → stof t2 = .ok high →
      low ≤ value → value ≤ high →
      ∃ ws' fitPOIs' p', poiDirective stof ws fitPOIs poiStr = .ok (ws', fitPOIs') ∧
        ws'.var name = some p' ∧ p'.val = value ∧
        p'.min ≤ p'.max ∧ p'.min ≤ value ∧ value ≤ p'.max) := by
  constructor
  · intro tok value hvals hstof hside
    obtain ⟨h1, h2, h3⟩ := @applyValueDirective_in_range value p hrange hside
    exact ⟨_, _, _, poiDirective_value hterms hvar hvals (by simp) hstof,
      var_modify ws _ (applyValueDirective_name value) (applyValueDirective_isRealVar value) hvar,
      applyValueDirective_val value p, h1, h2, h3⟩
  · intro t0 t1 t2 value low high hvals h0 h1 h2 hlow hhigh
    exact ⟨_, _, _, poiDirective_range hterms hvar hvals h0 h1 h2,
      var_modify ws _ (applyRangeDirective_name value low high)
        (applyRangeDirective_isRealVar value low high) hvar,
      rfl, double.le_trans hlow hhigh, hlow, hhigh⟩

/-- The directives `mu=20` and `mu=1.5_0_5` on a parameter with range `[-10, 10]`. -/
theorem directive_value_in_range_witness :
    (∃ ws' fitPOIs' p', poiDirective stof wsMu [] "mu=20" = .ok (ws', fitPOIs') ∧
      ws'.var "mu" = some p' ∧ p'.val = .fin 20 ∧ p'.min ≤ p'.max ∧ p'.min ≤ .fin 20 ∧
      .fin 20 ≤ p'.max) ∧
    (∃ ws' fitPOIs' p', poiDirective stof wsMu [] "mu=1.5_0_5" = .ok (ws', fitPOIs') ∧
      ws'.var "mu" = some p' ∧ p'.val = .fin (3 / 2) ∧ p'.min ≤ p'.max ∧
      p'.min ≤ .fin (3 / 2) ∧ .fin (3 / 2) ≤ p'.max) :=
  ⟨(directive_value_in_range stof wsMu [] "mu=20" "mu" "20" [] muNode (by decide) (by rfl)
      (by norm_num [double.le_iff, double.le, muNode])).1 "20" (.fin 20) (by decide) stof_20
      (Or.inr (by norm_num [double.le_iff, double.le])),
   (directive_value_in_range stof wsMu [] "mu=1.5_0_5" "mu" "1.5_0_5" [] muNode (by decide)
      (by rfl) (by norm_num [double.le_iff, double.le, muNode])).2 "1.5" "0" "5" (.fin (3 / 2))
      (.fin 0) (.fin 5) (by decide) stof_1_5 stof_0 stof_5
      (by norm_num [double.le_iff, double.le])
      (by norm_num [double.le_iff, double.le])⟩

/-! ## `checkModel` lemmas -/

theorem checkPOIs_ok (pdf : RooAbsPdf) (l : List RooAbsArg) (s : CheckState) :
    (checkPOIs pdf l s).ok = (s.ok && l.all (fun a => a.isRealVar && pdf.dependsOn a)) := by
  induction l generalizing s with
  | nil => simp [checkPOIs]
  | cons a rest ih =>
    unfold checkPOIs
    cases hr : a.isRealVar <;> cases hd : pdf.dependsOn a <;> simp [ih, hr, hd]

theorem checkPOIs_np (pdf : RooAbsPdf) (l : List RooAbsArg) (s : CheckState) :
    (checkPOIs pdf l s).nuisanceParameters = s.nuisanceParameters := by
  induction l generalizing s with
  | nil => simp [checkPOIs]
  | cons a rest ih =>
    unfold checkPOIs
    split_ifs <;> simp [ih]

theorem checkNPs_ok (pdf : RooAbsPdf) (l : List RooAbsArg) (s : CheckState) :
    (checkNPs pdf l s).ok = (s.ok && l.all (fun a => a.isRealVar && !a.isConstant)) := by
  induction l generalizing s with
  | nil => simp [checkNPs]
  | cons a rest ih =>
    unfold checkNPs
    cases hr : a.isRealVar <;> cases hc : a.isConstant <;> cases hd : pdf.dependsOn a <;>
      simp [ih, hr, hc, hd]

theorem checkNPs_np (pdf : RooAbsPdf) (l : List RooAbsArg) (s : CheckState) :
    (checkNPs pdf l s).nuisanceParameters =
      s.nuisanceParameters.filter
        (fun n => l.all (fun a => !(unusedNode pdf a && decide (a.name = n)))) := by
  induction l generalizing s with
  | nil => simp [checkNPs]
  | cons a rest ih =>
    unfold checkNPs
    cases hr : a.isRealVar <;> cases hc : a.isConstant <;> cases hd : pdf.dependsOn a <;>
      simp [ih, hr, hc, hd, unusedNode, List.filter_filter]
    apply List.filter_congr
    intro n _
    by_cases h : a.name = n
    · simp [h, eq_comm]
    · have h' : ¬ n = a.name := fun e => h e.symm
      simp [h, h']

theorem checkGOs_ok (pdf : RooAbsPdf) (l : List RooAbsArg) (s : CheckState) :
    (checkGOs pdf l s).ok = (s.ok && l.all (fun a => a.isRealVar && a.isConstant)) := by
  induction l generalizing s with
  | nil => simp [checkGOs]
  | cons a rest ih =>
    unfold checkGOs
    cases hr : a.isRealVar <;> cases hc : a.isConstant <;> cases hd : pdf.dependsOn a <;>
      simp [ih, hr, hc, hd]

theorem checkGOs_np (pdf : RooAbsPdf) (l : List RooAbsArg) (s : CheckState) :
    (checkGOs pdf l s).nuisanceParameters = s.nuisanceParameters := by
  induction l generalizing s with
  | nil => simp [checkGOs]
  | cons a rest ih =>
    unfold checkGOs
    split_ifs <;> simp [ih]

theorem checkRest_ok (l : List RooAbsArg) (s : CheckState) : (checkRest l s).ok = s.ok := by
  induction l generalizing s with
  | nil => simp [checkRest]
  | cons a rest ih =>
    unfold checkRest
    split_ifs <;> simp [ih]

theorem checkRest_np (l : List RooAbsArg) (s : CheckState) :
    (checkRest l s).nuisanceParameters = s.nuisanceParameters := by
  induction l generalizing s with
  | nil => simp [checkRest]
  | cons a rest ih =>
    unfold checkRest
    split_ifs <;> simp [ih]

theorem checkLoops_ok (model : ModelConfig) (pdf : RooAbsPdf) (obs : List String) :
    (checkLoops model pdf obs).ok = (poisValid model pdf && npsValid model && gosValid model) := by
  unfold checkLoops poisValid npsValid gosValid
  simp only [checkRest_ok]
  cases model.parametersOfInterest <;> cases model.nuisanceParameters <;>
    cases model.globalObservables <;>
    simp [checkGOs_ok, checkNPs_ok, checkPOIs_ok]

theorem checkLoops_np (model : ModelConfig) (pdf : RooAbsPdf) (obs np : List String)
    (hnp : model.nuisanceParameters = some np) :
    (checkLoops model pdf obs).nuisanceParameters =
      np.filter (fun n =>
        (model.ws.members np).all (fun a => !(unusedNode pdf a && decide (a.name = n)))) := by
  unfold checkLoops
  simp only [checkRest_np, hnp]
  cases model.parametersOfInterest <;> cases model.globalObservables <;>
    simp [checkGOs_np, checkNPs_np, checkPOIs_np]

/-- C4. `fitTool::checkModel` raises exactly when the density is absent, or `throwOnFail` is
set and the validity computed is false. With `throwOnFail` set it never returns false; with
`throwOnFail` unset and a density present it returns the validity. -/
theorem checkModel_raises_iff (model : ModelConfig) (throwOnFail : Bool) :
    ((∃ e, (checkModel model throwOnFail).1 = .error e) ↔
      (model.pdf = none ∨ (throwOnFail = true ∧ validity model = false))) ∧
    (throwOnFail = true → (checkModel model throwOnFail).1 ≠ .ok false) ∧
    (throwOnFail = false → model.pdf ≠ none →
      (checkModel model throwOnFail).1 = .ok (validity model)) := by
  unfold checkModel validity
  cases hpdf : model.pdf with
  | none => simp
  | some pdf =>
    cases hobs : model.observables with
    | none => cases throwOnFail <;> simp
    | some obs =>
      cases throwOnFail <;> cases hok : (checkLoops model pdf obs).ok <;> simp [hok]

/-- C5, the claim refuted. In `modelFixedNP` the density and the Observables are present and
the one parameter of interest is a `RooRealVar` the density depends on, yet `checkModel`
returns false: the nuisance parameter is constant. -/
theorem constant_np_fails_validation :
    modelFixedNP.pdf = some { leaves := ["x", "mu", "theta"] } ∧
    modelFixedNP.observables = some ["x"] ∧
    modelFixedNP.parametersOfInterest = some ["mu"] ∧
    modelFixedNP.ws.members ["mu"] = [muNode] ∧
    muNode.isRealVar = true ∧
    RooAbsPdf.dependsOn { leaves := ["x", "mu", "theta"] } muNode = true ∧
    (checkModel modelFixedNP false).1 = .ok false := by
  refine ⟨rfl, rfl, rfl, by rfl, rfl, by decide, by rfl⟩

/-- C5, amended. With a density present and `throwOnFail` unset, `fitTool::checkModel` returns
true exactly when the Observables are defined, the ParametersOfInterest are defined and each is
a `RooRealVar` the density depends on, every nuisance parameter is a `RooRealVar` that is not
constant, and every global observable is a `RooRealVar` that is constant. Nuisance parameters
and global observables the density does not depend on, and the parameters of the last loop, do
not enter. -/
theorem checkModel_true_iff (model : ModelConfig) (pdf : RooAbsPdf)
    (hpdf : model.pdf = some pdf) :
    (checkModel model false).1 = .ok true ↔
      (model.observables ≠ none ∧
       (∃ poi, model.parametersOfInterest = some poi ∧
          ∀ a ∈ model.ws.members poi, a.isRealVar = true ∧ pdf.dependsOn a = true) ∧
       (∀ np, model.nuisanceParameters = some np →
          ∀ a ∈ model.ws.members np, a.isRealVar = true ∧ a.isConstant = false) ∧
       (∀ go, model.globalObservables = some go →
          ∀ a ∈ model.ws.members go, a.isRealVar = true ∧ a.isConstant = true)) := by
  unfold checkModel
  simp only [hpdf]
  cases hobs : model.observables with
  | none => simp
  | some obs =>
    simp only [Bool.and_false, Bool.false_eq_true, if_false, checkLoops_ok,
      poisValid, npsValid, gosValid]
    cases model.parametersOfInterest <;> cases model.nuisanceParameters <;>
      cases model.globalObservables <;> simp [and_assoc]

/-- The model `modelUnusedNP` passes the validation. -/
theorem checkModel_true_iff_witness : (checkModel modelUnusedNP false).1 = .ok true :=
  (checkModel_true_iff modelUnusedNP { leaves := ["x", "mu"] } rfl).mpr
    ⟨by decide, ⟨["mu"], rfl, by decide⟩, by decide, by decide⟩

theorem mem_members {ws : RooWorkspace} {set : List String} {a : RooAbsArg} :
    a ∈ ws.members set ↔ ∃ n ∈ set, ws.find n = some a := by
  simp [RooWorkspace.members, List.mem_filterMap]

theorem members_all_unused (ws : RooWorkspace) (pdf : RooAbsPdf) (np : List String)
    (n : String) (hn : n ∈ np) :
    (ws.members np).all (fun a => !(unusedNode pdf a && decide (a.name = n)))
      = !unusedNP ws pdf n := by
  rw [Bool.eq_iff_iff]
  simp only [List.all_eq_true, Bool.not_eq_true', Bool.and_eq_false_iff, decide_eq_false_iff_not]
  constructor
  · intro h
    unfold unusedNP
    cases hf : ws.find n with
    | none => rfl
    | some a =>
      rcases h a (mem_members.mpr ⟨n, hn, hf⟩) with h | h
      · exact h
      · exact absurd (find_some_name hf) h
  · intro h a ha
    obtain ⟨m, _, hm⟩ := mem_members.mp ha
    by_cases hname : a.name = n
    · left
      have hmn : m = n := (find_some_name hm).symm.trans hname
      subst hmn
      simpa [unusedNP, hm] using h
    · right; exact hname

theorem checkModel_np (model : ModelConfig) (throwOnFail : Bool) (pdf : RooAbsPdf)
    (obs np : List String) (hpdf : model.pdf = some pdf) (hobs : model.observables = some obs)
    (hnp : model.nuisanceParameters = some np) :
    (checkModel model throwOnFail).2.nuisanceParameters
      = some (np.filter (fun n => !unusedNP model.ws pdf n)) := by
  have h : (checkLoops model pdf obs).nuisanceParameters
      = np.filter (fun n => !unusedNP model.ws pdf n) := by
    rw [checkLoops_np model pdf obs np hnp]
    apply List.filter_congr
    intro n hn
    exact members_all_unused model.ws pdf np n hn
  unfold checkModel
  simp only [hpdf, hobs]
  split_ifs <;> simp [hnp, h]

theorem checkModel_false_eq (model : ModelConfig) (pdf : RooAbsPdf) (obs : List String)
    (hpdf : model.pdf = some pdf) (hobs : model.observables = some obs) :
    (checkModel model false).1 = .ok (poisValid model pdf && npsValid model && gosValid model) := by
  unfold checkModel
  simp only [hpdf, hobs, Bool.and_false, Bool.false_eq_true, if_false, checkLoops_ok]

theorem npsValid_without (model : ModelConfig) (np : List String) (n : String) (a : RooAbsArg)
    (hnp : model.nuisanceParameters = some np) (hfind : model.ws.find n = some a)
    (hreal : a.isRealVar = true) (hfloat : a.isConstant = false) :
    npsValid { model with nuisanceParameters := some (np.filter (fun m => decide (m ≠ n))) }
      = npsValid model := by
  unfold npsValid
  simp only [hnp]
  rw [Bool.eq_iff_iff]
  simp only [List.all_eq_true]
  constructor
  · intro h b hb
    obtain ⟨m, hm, hmb⟩ := mem_members.mp hb
    by_cases hmn : m = n
    · subst hmn
      rw [hfind] at hmb
      cases hmb
      simp [hreal, hfloat]
    · exact h b (mem_members.mpr ⟨m, by simp [hm, hmn], hmb⟩)
  · intro h b hb
    obtain ⟨m, hm, hmb⟩ := mem_members.mp hb
    exact h b (mem_members.mpr ⟨m, (List.mem_filter.mp hm).1, hmb⟩)

/-- C6, the claim refuted. In `modelUnusedFixedNP` the density does not depend on the nuisance
parameter `theta`, which is constant: `checkModel` leaves it in the NuisanceParameters set
and returns false, while the same model without `theta` in the set passes. -/
theorem unused_constant_np_kept :
    modelUnusedFixedNP.nuisanceParameters = some ["theta"] ∧
    modelUnusedFixedNP.ws.find "theta" = some thetaFixed ∧
    RooAbsPdf.dependsOn { leaves := ["x", "mu"] } thetaFixed = false ∧
    (checkModel modelUnusedFixedNP false).2.nuisanceParameters = some ["theta"] ∧
    (checkModel modelUnusedFixedNP false).1 = .ok false ∧
    (checkModel { modelUnusedFixedNP with nuisanceParameters := some [] } false).1 = .ok true := by
  refine ⟨rfl, by rfl, by decide, by rfl, by rfl, by rfl⟩

/-- C6, amended. When the density and the Observables are present and the NuisanceParameters
set holds a `RooRealVar` that is not constant and that the density does not depend on,
`fitTool::checkModel` ends with that parameter out of the set; the set left is the former one
without the members of that kind, every other member kept in place; and the validity returned
is the one returned for the model without that parameter in the set. -/
theorem unused_np_removed (model : ModelConfig) (throwOnFail : Bool) (pdf : RooAbsPdf)
    (obs np : List String) (n : String) (a : RooAbsArg)
    (hpdf : model.pdf = some pdf) (hobs : model.observables = some obs)
    (hnp : model.nuisanceParameters = some np) (hn : n ∈ np)
    (hfind : model.ws.find n = some a)
    (hreal : a.isRealVar = true) (hfloat : a.isConstant = false)
    (hunused : pdf.dependsOn a = false) :
    (∃ np', (checkModel model throwOnFail).2.nuisanceParameters = some np' ∧
      np' = np.filter (fun m => !unusedNP model.ws pdf m) ∧ n ∉ np' ∧
      np'.length < np.length ∧
      ∀ m ∈ np, unusedNP model.ws pdf m = false → m ∈ np') ∧
    (checkModel model false).1 =
      (checkModel { model with nuisanceParameters := some (np.filter (fun m => decide (m ≠ n))) }
        false).1 := by
  have hun : unusedNP model.ws pdf n = true := by
    simp [unusedNP, hfind, unusedNode, hreal, hfloat, hunused]
  constructor
  · refine ⟨_, checkModel_np model throwOnFail pdf obs np hpdf hobs hnp, rfl, ?_, ?_, ?_⟩
    · simp [List.mem_filter, hun]
    · exact List.length_filter_lt_length_iff_exists.mpr ⟨n, hn, by simp [hun]⟩
    · intro m hm hkeep
      simp [List.mem_filter, hm, hkeep]
  · have hv := npsValid_without model np n a hnp hfind hreal hfloat
    have hw := checkModel_false_eq
      { model with nuisanceParameters := some (np.filter (fun m => decide (m ≠ n))) } pdf obs
      hpdf hobs
    rw [checkModel_false_eq model pdf obs hpdf hobs, hw]
    have hp : poisValid
        { model with nuisanceParameters := some (np.filter (fun m => decide (m ≠ n))) } pdf
        = poisValid model pdf := rfl
    have hg : gosValid
        { model with nuisanceParameters := some (np.filter (fun m => decide (m ≠ n))) }
        = gosValid model := rfl
    rw [hv, hp, hg]

/-- The model `modelUnusedNP`: its nuisance parameter `theta` floats and is not used by the
density; the validation empties the set and returns what it returns without `theta`. -/
theorem unused_np_removed_witness :
    (∃ np', (checkModel modelUnusedNP true).2.nuisanceParameters = some np' ∧
      np' = ["theta"].filter (fun m => !unusedNP modelUnusedNP.ws { leaves := ["x", "mu"] } m) ∧
      "theta" ∉ np' ∧ np'.length < ["theta"].length ∧
      ∀ m ∈ ["theta"], unusedNP modelUnusedNP.ws { leaves := ["x", "mu"] } m = false → m ∈ np') ∧
    (checkModel modelUnusedNP false).1 =
      (checkModel { modelUnusedNP with
        nuisanceParameters := some (["theta"].filter (fun m => decide (m ≠ "theta"))) } false).1 :=
  unused_np_removed modelUnusedNP true { leaves := ["x", "mu"] } ["x"] ["theta"] "theta" thetaFree
    rfl rfl rfl (by decide) (by rfl) rfl rfl (by decide)

/-! ## Preparation lemmas -/

theorem setConstant_name (c : Bool) (a : RooAbsArg) : (a.setConstant c).name = a.name := rfl

theorem find_setAllConstant (set : List String) (c : Bool) (ws : RooWorkspace) (n : String) :
    (setAllConstant ws set c).find n =
      (ws.find n).map (fun a => if n ∈ set then a.setConstant c else a) := by
  induction set generalizing ws with
  | nil => simp [setAllConstant]
  | cons m rest ih =>
    have hstep : setAllConstant ws (m :: rest) c
        = setAllConstant (ws.modify m (fun v => v.setConstant c)) rest c := rfl
    rw [hstep, ih, find_modify ws _ (setConstant_name c)]
    by_cases hnm : n = m
    · subst hnm
      cases ws.find n with
      | none => simp
      | some a => by_cases hr : n ∈ rest <;> simp [hr, RooAbsArg.setConstant]
    · cases ws.find n with
      | none => simp [hnm]
      | some a => by_cases hr : n ∈ rest <;> simp [hr, hnm]

theorem constant_after_default (ws : RooWorkspace) (go np poi : List String) (first n : String)
    (a : RooAbsArg)
    (h : ((defaulted ws go np poi).modify first (fun v => v.setConstant false)).find n = some a) :
    ∃ a0, ws.find n = some a0 ∧
      a.constant = (if n = first then false else if n ∈ poi then true
        else if n ∈ np then false else if n ∈ go then true else a0.constant) := by
  rw [find_modify _ _ (setConstant_name false)] at h
  unfold defaulted at h
  simp only [find_setAllConstant] at h
  cases h0 : ws.find n with
  | none => simp [h0] at h
  | some a0 =>
    refine ⟨a0, rfl, ?_⟩
    simp only [h0, Option.map_some', ite_self] at h
    by_cases h1 : n = first <;> by_cases h2 : n ∈ poi <;> by_cases h3 : n ∈ np <;>
      by_cases h4 : n ∈ go <;>
      simp [h1, h2, h3, h4] at h <;> subst h <;> simp [h1, h2, h3, h4, RooAbsArg.setConstant]

theorem checkModel_frame (model : ModelConfig) (throwOnFail : Bool) :
    (checkModel model throwOnFail).2.ws = model.ws ∧
    (checkModel model throwOnFail).2.parametersOfInterest = model.parametersOfInterest ∧
    (checkModel model throwOnFail).2.globalObservables = model.globalObservables := by
  unfold checkModel
  cases model.pdf with
  | none => exact ⟨rfl, rfl, rfl⟩
  | some pdf =>
    cases model.observables with
    | none => dsimp only; split_ifs <;> exact ⟨rfl, rfl, rfl⟩
    | some obs => dsimp only; split_ifs <;> exact ⟨rfl, rfl, rfl⟩

theorem checkModel_np_subset (model : ModelConfig) (throwOnFail : Bool) (np : List String)
    (hnp : model.nuisanceParameters = some np) :
    ∃ np', (checkModel model throwOnFail).2.nuisanceParameters = some np' ∧ ∀ n ∈ np', n ∈ np := by
  cases hpdf : model.pdf with
  | none => exact ⟨np, by simp [checkModel, hpdf, hnp], fun _ h => h⟩
  | some pdf =>
    cases hobs : model.observables with
    | none =>
      refine ⟨np, ?_, fun _ h => h⟩
      unfold checkModel
      simp only [hpdf, hobs]
      split_ifs <;> exact hnp
    | some obs =>
      exact ⟨_, checkModel_np model throwOnFail pdf obs np hpdf hobs hnp,
        fun n h => (List.mem_filter.mp h).1⟩

/-- What `prepare` returns, when it returns, without fix-list and POI directives. -/
theorem prepare_default_eq (checkWS : Bool) (mc mc' : ModelConfig) (go np rest : List String)
    (first : String)
    (hgo : mc.globalObservables = some go) (hnp : mc.nuisanceParameters = some np)
    (hpoi : mc.parametersOfInterest = some (first :: rest))
    (h : prepare { checkWS := checkWS, fixNP := none, poi := none } mc = .ok mc') :
    ∃ np', (checkWS = false → np' = np) ∧ (∀ n ∈ np', n ∈ np) ∧
      mc'.nuisanceParameters = some np' ∧ mc'.globalObservables = some go ∧
      mc'.parametersOfInterest = some [first] ∧
      mc'.ws = (defaulted mc.ws go np (first :: rest)).modify first
        (fun v => v.setConstant false) := by
  obtain ⟨ws, pdf, obs, poi0, np0, go0⟩ := mc
  simp only at hgo hnp hpoi
  subst hgo hnp hpoi
  unfold prepare at h
  cases checkWS with
  | false =>
    simp only [Bool.false_eq_true, if_false] at h
    cases h
    exact ⟨np, fun _ => rfl, fun _ h => h, rfl, rfl, rfl, rfl⟩
  | true =>
    simp only [if_true] at h
    obtain ⟨hws, hp, hg⟩ := checkModel_frame
      { ws := defaulted ws go np (first :: rest), pdf := pdf, observables := obs,
        parametersOfInterest := some (first :: rest), nuisanceParameters := some np,
        globalObservables := some go } true
    obtain ⟨np', hnp', hsub⟩ := checkModel_np_subset
      { ws := defaulted ws go np (first :: rest), pdf := pdf, observables := obs,
        parametersOfInterest := some (first :: rest), nuisanceParameters := some np,
        globalObservables := some go } true np rfl
    unfold defaulted at hws hp hg hnp'
    rcases hres : checkModel
      { ws := setAllConstant (setAllConstant (setAllConstant ws go true) np false)
          (first :: rest) true, pdf := pdf, observables := obs,
        parametersOfInterest := some (first :: rest), nuisanceParameters := some np,
        globalObservables := some go } true with ⟨r, mcC⟩
    rw [hres] at hws hp hg hnp' h
    simp only at hws hp hg hnp'
    cases r with
    | error e => simp at h
    | ok b =>
      simp only [hp] at h
      cases h
      refine ⟨np', fun hc => Bool.noConfusion hc, hsub, hnp', hg, rfl, ?_⟩
      show mcC.ws.modify first (fun v => v.setConstant false) = _
      rw [hws]
      rfl

/-- C7, the claim refuted. In `modelOverlap` the node `theta` is a nuisance parameter and a
global observable. After the preparation without directives and fix-list it is a global
observable that is not constant: line 188 floats what line 187 fixed. -/
theorem overlapping_sets_break_defaulting :
    modelOverlap.parametersOfInterest = some ["mu"] ∧
    ∃ mc', prepare { checkWS := false, fixNP := none, poi := none } modelOverlap = .ok mc' ∧
      mc'.globalObservables = some ["theta"] ∧
      ∃ a, mc'.ws.find "theta" = some a ∧ a.isConstant = false := by
  refine ⟨rfl, _, rfl, rfl, thetaFree, ?_, rfl⟩
  rfl

/-- C7, amended. For a model whose GlobalObservables and NuisanceParameters are defined and
whose ParametersOfInterest start with a node of the workspace, the preparation of `main`
without POI directives and without fix-list returns when the sanity check is off, and
whenever it returns: the ParametersOfInterest are exactly the former first one, which is not
constant; every global observable other than the first POI that is not a nuisance parameter,
or is a parameter of interest, is constant; every nuisance parameter left in the set that is
not a parameter of interest, or is the first one, is not constant. -/
theorem prepare_default (mc : ModelConfig) (go np rest : List String) (first : String)
    (p0 : RooAbsArg)
    (hgo : mc.globalObservables = some go) (hnp : mc.nuisanceParameters = some np)
    (hpoi : mc.parametersOfInterest = some (first :: rest))
    (hfirst : mc.ws.find first = some p0) :
    (∃ mc', prepare { checkWS := false, fixNP := none, poi := none } mc = .ok mc') ∧
    ∀ checkWS mc', prepare { checkWS := checkWS, fixNP := none, poi := none } mc = .ok mc' →
      mc'.parametersOfInterest = some [first] ∧
      (∃ a, mc'.ws.find first = some a ∧ a.isConstant = false) ∧
      mc'.globalObservables = some go ∧
      (∀ a ∈ mc'.ws.members go, (a.name ∉ np ∨ a.name ∈ first :: rest) → a.name ≠ first →
        a.isConstant = true) ∧
      ∃ np', mc'.nuisanceParameters = some np' ∧ (checkWS = false → np' = np) ∧
        (∀ n ∈ np', n ∈ np) ∧
        ∀ a ∈ mc'.ws.members np', (a.name ∉ first :: rest ∨ a.name = first) →
          a.isConstant = false := by
  constructor
  · obtain ⟨ws, pdf, obs, poi0, np0, go0⟩ := mc
    simp only at hgo hnp hpoi
    subst hgo hnp hpoi
    exact ⟨_, rfl⟩
  · intro checkWS mc' h
    obtain ⟨np', hsame, hsub, hnp', hgo', hpoi', hws⟩ :=
      prepare_default_eq checkWS mc mc' go np rest first hgo hnp hpoi h
    have hflag : ∀ n a, mc'.ws.find n = some a → ∃ a0, mc.ws.find n = some a0 ∧
        a.constant = (if n = first then false else if n ∈ first :: rest then true
          else if n ∈ np then false else if n ∈ go then true else a0.constant) := by
      intro n a hfind
      rw [hws] at hfind
      exact constant_after_default mc.ws go np (first :: rest) first n a hfind
    refine ⟨hpoi', ?_, hgo', ?_, np', hnp', hsame, hsub, ?_⟩
    · have hf : ∃ a, mc'.ws.find first = some a := by
        rw [hws, find_modify _ _ (setConstant_name false)]
        unfold defaulted
        simp only [find_setAllConstant, hfirst, Option.map_some', if_true]
        exact ⟨_, rfl⟩
      obtain ⟨a, ha⟩ := hf
      obtain ⟨a0, -, hc⟩ := hflag first a ha
      refine ⟨a, ha, ?_⟩
      show a.constant = false
      rw [hc]
      simp
    · intro a ha hside hne
      obtain ⟨n, hn, hfind⟩ := mem_members.mp ha
      have hname := find_some_name hfind
      obtain ⟨a0, -, hc⟩ := hflag n a hfind
      rw [hname] at hside hne
      show a.constant = true
      rw [hc]
      rcases hside with hside | hside
      · simp [hne, hside, hn]
      · simp [hne, hside]
    · intro a ha hside
      obtain ⟨n, hn, hfind⟩ := mem_members.mp ha
      have hname := find_some_name hfind
      obtain ⟨a0, -, hc⟩ := hflag n a hfind
      rw [hname] at hside
      show a.constant = false
      rw [hc]
      rcases hside with hside | hside
      · by_cases h1 : n = first
        · simp [h1]
        · simp [h1, hside, hsub n hn]
      · simp [hside]

/-- The model `modelDisjoint`, prepared without directives: `mu` is the one parameter of
interest and floats, the global observable `nom_theta` is constant, the nuisance parameter
`theta` floats. -/
theorem prepare_default_witness :
    ∃ mc', prepare { checkWS := false, fixNP := none, poi := none } modelDisjoint = .ok mc' ∧
      mc'.parametersOfInterest = some ["mu"] ∧
      (∃ a, mc'.ws.find "mu" = some a ∧ a.isConstant = false) ∧
      mc'.globalObservables = some ["nom_theta"] ∧
      (∀ a ∈ mc'.ws.members ["nom_theta"], (a.name ∉ ["theta"] ∨ a.name ∈ ["mu"]) →
        a.name ≠ "mu" → a.isConstant = true) ∧
      ∃ np', mc'.nuisanceParameters = some np' ∧ np' = ["theta"] ∧
        ∀ a ∈ mc'.ws.members np', (a.name ∉ ["mu"] ∨ a.name = "mu") → a.isConstant = false := by
  have h := prepare_default modelDisjoint ["nom_theta"] ["theta"] [] "mu" muNode rfl rfl rfl
    (by rfl)
  obtain ⟨mc', hrun⟩ := h.1
  obtain ⟨h1, h2, h3, h4, np', h5, h6, -, h8⟩ := h.2 false mc' hrun
  exact ⟨mc', hrun, h1, h2, h3, h4, np', h5, h6 rfl, h8⟩

/-- C10, the claim refuted. With HESSE enabled, a primary minimization that returns 1 and a
HESSE pass that returns 0 give the status `1 & 0 = 0`: `main` prints STATUS OK and no
warning. -/
theorem failed_minimize_masked_by_hesse :
    fitHesse.useHESSE = true ∧
    ({ minimize := 1, hesse := 0, minos := 0 } : RooMinimizer).minimize ≠ 0 ∧
    profileToData fitHesse { minimize := 1, hesse := 0, minos := 0 } = 0 ∧
    STATMSG (profileToData fitHesse { minimize := 1, hesse := 0, minos := 0 })
      = "\x1b[92m STATUS OK \x1b[0m" ∧
    printsWarning (profileToData fitHesse { minimize := 1, hesse := 0, minos := 0 }) = false := by
  refine ⟨rfl, by decide, by decide, by decide, by decide⟩

/-- C10, amended. `main` prints STATUS FAILED and the warning exactly when the status
`fitTool::profileToData` returns is not zero. That status is not zero only if every enabled
stage returned a status that is not zero, and it is zero as soon as one enabled stage
returned zero; with HESSE and MINOS both disabled a primary status that is not zero is
always reported. -/
theorem failure_reported_iff (fit : fitTool) (minim : RooMinimizer) :
    ((STATMSG (profileToData fit minim) = "\x1b[91m STATUS FAILED \x1b[0m" ∧
        printsWarning (profileToData fit minim) = true) ↔ profileToData fit minim ≠ 0) ∧
    (profileToData fit minim ≠ 0 → ∀ s ∈ enabledStatuses fit minim, s ≠ 0) ∧
    ((∃ s ∈ enabledStatuses fit minim, s = 0) → profileToData fit minim = 0 ∧
        STATMSG (profileToData fit minim) = "\x1b[92m STATUS OK \x1b[0m" ∧
        printsWarning (profileToData fit minim) = false) ∧
    (fit.useHESSE = false → fit.useMINOS = false → minim.minimize ≠ 0 →
      STATMSG (profileToData fit minim) = "\x1b[91m STATUS FAILED \x1b[0m" ∧
        printsWarning (profileToData fit minim) = true) := by
  have hrep : ∀ s : Int, (STATMSG s = "\x1b[91m STATUS FAILED \x1b[0m" ∧ printsWarning s = true)
      ↔ s ≠ 0 := by
    intro s
    by_cases hs : s = 0
    · subst hs; simp [STATMSG, printsWarning]
    · simp [STATMSG, printsWarning, hs]
  have hall : profileToData fit minim ≠ 0 → ∀ s ∈ enabledStatuses fit minim, s ≠ 0 := by
    intro h s hs
    unfold profileToData at h
    unfold enabledStatuses at hs
    cases hH : fit.useHESSE <;> cases hM : fit.useMINOS <;>
      simp only [hH, hM, Bool.false_eq_true, if_false, if_true, List.append_nil, List.nil_append,
        List.mem_cons, List.mem_singleton, List.not_mem_nil, or_false, List.singleton_append]
        at h hs
    · subst hs; exact h
    · rcases hs with rfl | rfl
      · exact (land_ne_zero h).1
      · exact (land_ne_zero h).2
    · rcases hs with rfl | rfl
      · exact (land_ne_zero h).1
      · exact (land_ne_zero h).2
    · rcases hs with rfl | rfl | rfl
      · exact (land_ne_zero (land_ne_zero h).1).1
      · exact (land_ne_zero (land_ne_zero h).1).2
      · exact (land_ne_zero h).2
  refine ⟨hrep _, hall, ?_, ?_⟩
  · rintro ⟨s, hs, hzero⟩
    have hz : profileToData fit minim = 0 := by
      by_contra hne
      exact hall hne s hs hzero
    rw [hz]
    simp [STATMSG, printsWarning]
  · intro hH hM hne
    have : profileToData fit minim = minim.minimize := by simp [profileToData, hH, hM]
    rw [this]
    exact (hrep _).mpr hne

end QuickFit
